import Mathlib

/-!
Verification of the two custom layers in `keras_contrib/layers/core.py`:
the separable fully-connected layer `SeparableFC` and the cosine-normalized
dense layer `CosineDense`.

Tensors are embedded as functions out of `Fin`-index types (entries in `ℚ`
for the separable layer, in `ℝ` for the cosine layer, whose formula uses a
square root); backend ops (`K.dot`, `K.transpose`, `K.reshape`,
`K.concatenate`, `K.expand_dims`) are embedded at their mathematical index
semantics.  The width axis of the positional-weight matrix, on which
`SeparableFC.call` concatenates a reversed slice, is embedded as a `List`.
Build / shape functions, whose Python originals raise on bad shapes, return
`Except String`.
-/

/-- SeparableFC.build, line 55: the stored positional-weight width
`self.length = int(input_shape[1] / 2.0 + 0.5)` in symmetric mode, and
`self.length = input_shape[1]` otherwise.  For a natural `steps`,
`int(steps / 2.0 + 0.5)` is exactly `(steps + 1) / 2` in natural division. -/
def sepFCStoredLength (symmetric : Bool) (steps : Nat) : Nat :=
  if symmetric then (steps + 1) / 2 else steps

/-- SeparableFC.build, line 54: `self.odd_input_length = input_shape[1] % 2.0 == 1`. -/
def sepFCOddInputLength (steps : Nat) : Bool :=
  steps % 2 == 1

/-- SeparableFC.call, lines 80-83: the symmetric reconstruction of one row of
`W_pos` along the width axis,
`K.concatenate([W_pos, W_pos[:, ::-1][:, (1 if odd_input_length else 0):]], axis=1)`.
Per row this is the row, followed by its reversal with the first
`1` (odd) or `0` (even) entries dropped. -/
def sepFCReconstructRow (odd : Bool) (row : List ℚ) : List ℚ :=
  row ++ row.reverse.drop (if odd then 1 else 0)

theorem sepFCReconstructRow_reverse (odd : Bool) (row : List ℚ)
    (h : odd = true → row ≠ []) :
    (sepFCReconstructRow odd row).reverse = sepFCReconstructRow odd row := by
  cases odd with
  | false => simp [sepFCReconstructRow]
  | true =>
    rcases List.eq_nil_or_concat row with rfl | ⟨ys, a, rfl⟩
    · exact absurd rfl (h rfl)
    · simp [sepFCReconstructRow, List.reverse_append]

theorem sepFCReconstructRow_length (odd : Bool) (row : List ℚ) :
    (sepFCReconstructRow odd row).length =
      row.length + (row.length - if odd then 1 else 0) := by
  simp [sepFCReconstructRow]

/-- C1: in symmetric mode the stored positional-weight width is
`(steps + 1) / 2`, which is the ceiling of `steps / 2` (pinned by the two
inequalities), and the positional weight row reconstructed at forward time
(the stored row concatenated with its reversal, dropping the first mirrored
entry exactly when `steps` is odd) has length exactly `steps` and is a
palindrome, for every positive `steps`, odd or even. -/
theorem sepFC_symmetric_reconstruction (steps : Nat) (hpos : 0 < steps)
    (row : List ℚ) (hrow : row.length = sepFCStoredLength true steps) :
    sepFCStoredLength true steps = (steps + 1) / 2 ∧
    steps ≤ 2 * sepFCStoredLength true steps ∧
    2 * sepFCStoredLength true steps ≤ steps + 1 ∧
    (sepFCReconstructRow (sepFCOddInputLength steps) row).length = steps ∧
    (sepFCReconstructRow (sepFCOddInputLength steps) row).reverse =
      sepFCReconstructRow (sepFCOddInputLength steps) row := by
  have hlen : sepFCStoredLength true steps = (steps + 1) / 2 := by
    simp [sepFCStoredLength]
  refine ⟨hlen, by rw [hlen]; omega, by rw [hlen]; omega, ?_, ?_⟩
  · rw [sepFCReconstructRow_length, hrow, hlen]
    rcases Nat.mod_two_eq_zero_or_one steps with h2 | h2 <;>
      simp [sepFCOddInputLength, h2] <;> omega
  · apply sepFCReconstructRow_reverse
    intro _
    apply List.ne_nil_of_length_pos
    rw [hrow, hlen]
    omega

/-- Witness for C1 at the spec's examples: odd `steps = 5` with a stored row of
width 3, and even `steps = 4` with a stored row of width 2. -/
theorem sepFC_symmetric_reconstruction_witness :
    ((0 < 5 ∧ [(1 : ℚ), 2, 3].length = sepFCStoredLength true 5) ∧
      sepFCStoredLength true 5 = (5 + 1) / 2 ∧
      5 ≤ 2 * sepFCStoredLength true 5 ∧
      2 * sepFCStoredLength true 5 ≤ 5 + 1 ∧
      (sepFCReconstructRow (sepFCOddInputLength 5) [(1 : ℚ), 2, 3]).length = 5 ∧
      (sepFCReconstructRow (sepFCOddInputLength 5) [(1 : ℚ), 2, 3]).reverse =
        sepFCReconstructRow (sepFCOddInputLength 5) [(1 : ℚ), 2, 3]) ∧
    ((0 < 4 ∧ [(1 : ℚ), 2].length = sepFCStoredLength true 4) ∧
      sepFCStoredLength true 4 = (4 + 1) / 2 ∧
      4 ≤ 2 * sepFCStoredLength true 4 ∧
      2 * sepFCStoredLength true 4 ≤ 4 + 1 ∧
      (sepFCReconstructRow (sepFCOddInputLength 4) [(1 : ℚ), 2]).length = 4 ∧
      (sepFCReconstructRow (sepFCOddInputLength 4) [(1 : ℚ), 2]).reverse =
        sepFCReconstructRow (sepFCOddInputLength 4) [(1 : ℚ), 2]) :=
  ⟨⟨⟨by decide, by rfl⟩,
      sepFC_symmetric_reconstruction 5 (by decide) [(1 : ℚ), 2, 3] (by rfl)⟩,
    ⟨⟨by decide, by rfl⟩,
      sepFC_symmetric_reconstruction 4 (by decide) [(1 : ℚ), 2] (by rfl)⟩⟩

/-- Backend op `K.transpose` on a 2-D tensor. -/
def kTranspose {a b : Nat} (M : Fin a → Fin b → ℚ) : Fin b → Fin a → ℚ :=
  fun i j => M j i

/-- Backend op `K.dot` on 2-D tensors: ordinary matrix multiplication. -/
def kDot {a n b : Nat} (M : Fin a → Fin n → ℚ) (N : Fin n → Fin b → ℚ) :
    Fin a → Fin b → ℚ :=
  fun i j => ∑ k, M i k * N k j

/-- Backend op `K.reshape(t, (d, S * C))`: row-major flattening of the last two
axes of a `(d, S, C)` tensor, flat index `j` reading entry `(j / C, j % C)`. -/
def kReshapeFlat {d S C : Nat} (t : Fin d → Fin S → Fin C → ℚ) :
    Fin d → Fin (S * C) → ℚ :=
  fun o j => t o j.divNat j.modNat

/-- SeparableFC.call, line 84:
`K.expand_dims(W_pos, 2) * K.expand_dims(self.W_chan, 1)`, the broadcast
product of shapes `(D, S, 1)` and `(D, 1, C)` giving `(D, S, C)`. -/
def kExpandDimsMul {D S C : Nat} (wpos : Fin D → Fin S → ℚ)
    (wchan : Fin D → Fin C → ℚ) : Fin D → Fin S → Fin C → ℚ :=
  fun o i c => wpos o i * wchan o c

/-- SeparableFC.call with `symmetric = False` (lines 77-78 and 84-90):
`W_pos = self.W_pos`; `W_output` is the broadcast outer product reshaped to
`(D, S * C)`; the input is reshaped to `(B, S * C)`; the output is
`K.dot(x, K.transpose(W_output))`. -/
def sepFCCallNonSymmetric {B D S C : Nat} (wpos : Fin D → Fin S → ℚ)
    (wchan : Fin D → Fin C → ℚ) (x : Fin B → Fin S → Fin C → ℚ) :
    Fin B → Fin D → ℚ :=
  kDot (kReshapeFlat x) (kTranspose (kReshapeFlat (kExpandDimsMul wpos wchan)))

/-- Modelled from the spec (reference dense layer of the refinement claim):
the full dense weight matrix whose row for output unit `o` is the outer
product of `W_pos o` and `W_chan o` with the two axes flattened row-major. -/
def sepFCReferenceWeight {D S C : Nat} (wpos : Fin D → Fin S → ℚ)
    (wchan : Fin D → Fin C → ℚ) : Fin D → Fin (S * C) → ℚ :=
  fun o j => wpos o j.divNat * wchan o j.modNat

/-- Modelled from the spec (reference dense layer of the refinement claim):
a dense layer with weight matrix `W` of shape `(D, S * C)` applied to the
input flattened to `(B, S * C)`: `output = x_flat · transpose(W)`, that is
`output b o = ∑ j, x_flat b j * W o j`. -/
def sepFCReferenceDense {B D S C : Nat} (wpos : Fin D → Fin S → ℚ)
    (wchan : Fin D → Fin C → ℚ) (x : Fin B → Fin S → Fin C → ℚ) :
    Fin B → Fin D → ℚ :=
  fun b o => ∑ j, kReshapeFlat x b j * sepFCReferenceWeight wpos wchan o j

/-- C2: for every input of shape `(B, S, C)` and every parameter pair
`W_pos : (D, S)`, `W_chan : (D, C)`, the non-symmetric SeparableFC forward
output equals the reference dense layer whose weight matrix is the
per-output-unit outer product of `W_pos` and `W_chan` with the last two axes
flattened, applied to the input flattened to `(B, S * C)`. -/
theorem sepFC_nonsymmetric_refines_dense {B D S C : Nat}
    (wpos : Fin D → Fin S → ℚ) (wchan : Fin D → Fin C → ℚ)
    (x : Fin B → Fin S → Fin C → ℚ) :
    sepFCCallNonSymmetric wpos wchan x = sepFCReferenceDense wpos wchan x := by
  funext b o
  simp [sepFCCallNonSymmetric, sepFCReferenceDense, kDot, kTranspose,
    kReshapeFlat, kExpandDimsMul, sepFCReferenceWeight]

/-- The flattened dot product of C2 unflattened: the same forward output as the
explicit double sum over positions and channels. -/
theorem sepFCCallNonSymmetric_eq_double_sum {B D S C : Nat}
    (wpos : Fin D → Fin S → ℚ) (wchan : Fin D → Fin C → ℚ)
    (x : Fin B → Fin S → Fin C → ℚ) (b : Fin B) (o : Fin D) :
    sepFCCallNonSymmetric wpos wchan x b o =
      ∑ i, ∑ c, x b i c * (wpos o i * wchan o c) := by
  have h := Fintype.sum_equiv finProdFinEquiv
    (fun p : Fin S × Fin C => x b p.1 p.2 * (wpos o p.1 * wchan o p.2))
    (fun j : Fin (S * C) => x b j.divNat j.modNat * (wpos o j.divNat * wchan o j.modNat))
    ?_
  · rw [sepFCCallNonSymmetric]
    simp only [kDot, kTranspose, kReshapeFlat, kExpandDimsMul]
    rw [← h, Fintype.sum_prod_type]
  · intro p
    have hd : (finProdFinEquiv p).divNat = p.1 := by
      have := finProdFinEquiv.left_inv p
      have h2 : finProdFinEquiv.symm (finProdFinEquiv p) = p := this
      rw [finProdFinEquiv_symm_apply] at h2
      exact congrArg Prod.fst h2
    have hm : (finProdFinEquiv p).modNat = p.2 := by
      have h2 : finProdFinEquiv.symm (finProdFinEquiv p) = p :=
        finProdFinEquiv.left_inv p
      rw [finProdFinEquiv_symm_apply] at h2
      exact congrArg Prod.snd h2
    simp only [hd, hm]

/-- CosineDense.call, lines 222-228: the input norm
`xnorm = K.sqrt(K.sum(K.square(x), axis=-1, keepdims=True) + xb + K.epsilon())`
with `xb = 1.` when `use_bias` else `0.`; with `keepdims` the per-row scalar is
broadcast, so it is embedded as one scalar per batch row. -/
noncomputable def cosineDenseXnorm {B I : Nat} (useBias : Bool) (eps : ℝ)
    (x : Fin B → Fin I → ℝ) : Fin B → ℝ :=
  fun b => Real.sqrt ((∑ k, x b k ^ 2) + (if useBias then (1 : ℝ) else 0) + eps)

/-- CosineDense.call, lines 222-229: the augmented weight norm
`Wnorm = K.sqrt(K.sum(K.square(self.kernel), axis=0) + K.square(b) + K.epsilon())`
with `b = self.bias` when `use_bias` else `0.`. -/
noncomputable def cosineDenseWnorm {I U : Nat} (useBias : Bool) (eps : ℝ)
    (kernel : Fin I → Fin U → ℝ) (bias : Fin U → ℝ) : Fin U → ℝ :=
  fun u => Real.sqrt ((∑ k, kernel k u ^ 2) + (if useBias then bias u else 0) ^ 2 + eps)

/-- CosineDense.call, lines 222-236: `output = K.dot(x, self.kernel) / xWnorm`,
plus `self.bias / xWnorm` when `use_bias`, then the activation. -/
noncomputable def cosineDenseCall {B I U : Nat} (useBias : Bool) (act : ℝ → ℝ)
    (eps : ℝ) (kernel : Fin I → Fin U → ℝ) (bias : Fin U → ℝ)
    (x : Fin B → Fin I → ℝ) : Fin B → Fin U → ℝ :=
  fun b u =>
    let xWnorm := cosineDenseXnorm useBias eps x b *
      cosineDenseWnorm useBias eps kernel bias u
    let output := (∑ k, x b k * kernel k u) / xWnorm
    act (if useBias then output + bias u / xWnorm else output)

/-- C3: for every built parameter set and input, the CosineDense forward output
equals `activation(raw)` where `raw` is the dot product divided by
`xnorm * Wnorm`, with `xnorm = sqrt(Σ x² + xb + ε)` over the last axis,
`Wnorm = sqrt(Σ kernel² + b² + ε)` over the input axis, plus
`bias / (xnorm * Wnorm)` exactly when `use_bias`, where `(b, xb)` is
`(bias, 1.0)` under `use_bias` and `(0, 0.0)` otherwise. -/
theorem cosineDense_call_formula {B I U : Nat} (useBias : Bool) (act : ℝ → ℝ)
    (eps : ℝ) (kernel : Fin I → Fin U → ℝ) (bias : Fin U → ℝ)
    (x : Fin B → Fin I → ℝ) (b : Fin B) (u : Fin U) :
    cosineDenseCall useBias act eps kernel bias x b u =
      act ((∑ k, x b k * kernel k u) /
          (Real.sqrt ((∑ k, x b k ^ 2) + (if useBias then (1 : ℝ) else 0) + eps) *
            Real.sqrt ((∑ k, kernel k u ^ 2) +
              (if useBias then bias u else 0) ^ 2 + eps)) +
        (if useBias then
          bias u /
            (Real.sqrt ((∑ k, x b k ^ 2) + (if useBias then (1 : ℝ) else 0) + eps) *
              Real.sqrt ((∑ k, kernel k u ^ 2) +
                (if useBias then bias u else 0) ^ 2 + eps))
          else 0)) := by
  cases useBias <;>
    simp [cosineDenseCall, cosineDenseXnorm, cosineDenseWnorm]

/-- C5: with no bias and a zero epsilon the CosineDense forward output is
invariant under scaling the kernel by any positive constant `k`. -/
theorem cosineDense_kernel_scale_invariant {B I U : Nat} (k : ℝ) (hk : 0 < k)
    (act : ℝ → ℝ) (kernel : Fin I → Fin U → ℝ) (bias : Fin U → ℝ)
    (x : Fin B → Fin I → ℝ) :
    cosineDenseCall false act 0 (fun i u => k * kernel i u) bias x =
      cosineDenseCall false act 0 kernel bias x := by
  funext b u
  simp only [cosineDenseCall, cosineDenseXnorm, cosineDenseWnorm, if_neg,
    Bool.false_eq_true, if_false]
  congr 1
  have hker : (∑ i, (k * kernel i u) ^ 2) = k ^ 2 * ∑ i, kernel i u ^ 2 := by
    rw [Finset.mul_sum]
    exact Finset.sum_congr rfl fun i _ => by ring
  have hnum : (∑ i, x b i * (k * kernel i u)) = k * ∑ i, x b i * kernel i u := by
    rw [Finset.mul_sum]
    exact Finset.sum_congr rfl fun i _ => by ring
  have hW : Real.sqrt ((∑ i, (k * kernel i u) ^ 2) + 0 ^ 2 + 0) =
      k * Real.sqrt ((∑ i, kernel i u ^ 2) + 0 ^ 2 + 0) := by
    rw [hker]
    rw [show k ^ 2 * (∑ i, kernel i u ^ 2) + 0 ^ 2 + 0 =
      k ^ 2 * ((∑ i, kernel i u ^ 2) + 0 ^ 2 + 0) by ring]
    rw [Real.sqrt_mul (sq_nonneg k), Real.sqrt_sq hk.le]
  rw [hnum, hW, mul_left_comm, mul_div_mul_left _ _ hk.ne']

/-- Witness for C5 at the spec's scale factors `k = 1, 2, 10`, with a one-entry
input and kernel and the identity activation. -/
theorem cosineDense_kernel_scale_invariant_witness :
    ((0 : ℝ) < 1 ∧
      cosineDenseCall false id 0 (fun i u : Fin 1 => 1 * (fun _ _ : Fin 1 => (3 : ℝ)) i u)
          (fun _ : Fin 1 => 0) (fun _ _ : Fin 1 => (2 : ℝ)) =
        cosineDenseCall false id 0 (fun _ _ : Fin 1 => (3 : ℝ))
          (fun _ : Fin 1 => 0) (fun _ _ : Fin 1 => (2 : ℝ))) ∧
    ((0 : ℝ) < 2 ∧
      cosineDenseCall false id 0 (fun i u : Fin 1 => 2 * (fun _ _ : Fin 1 => (3 : ℝ)) i u)
          (fun _ : Fin 1 => 0) (fun _ _ : Fin 1 => (2 : ℝ)) =
        cosineDenseCall false id 0 (fun _ _ : Fin 1 => (3 : ℝ))
          (fun _ : Fin 1 => 0) (fun _ _ : Fin 1 => (2 : ℝ))) ∧
    ((0 : ℝ) < 10 ∧
      cosineDenseCall false id 0 (fun i u : Fin 1 => 10 * (fun _ _ : Fin 1 => (3 : ℝ)) i u)
          (fun _ : Fin 1 => 0) (fun _ _ : Fin 1 => (2 : ℝ)) =
        cosineDenseCall false id 0 (fun _ _ : Fin 1 => (3 : ℝ))
          (fun _ : Fin 1 => 0) (fun _ _ : Fin 1 => (2 : ℝ))) :=
  ⟨⟨one_pos, cosineDense_kernel_scale_invariant 1 one_pos id _ _ _⟩,
    ⟨two_pos, cosineDense_kernel_scale_invariant 2 two_pos id _ _ _⟩,
    ⟨by norm_num, cosineDense_kernel_scale_invariant 10 (by norm_num) id _ _ _⟩⟩

/-- C8: the CosineDense forward denominator `xnorm * Wnorm` is strictly
positive whenever `ε > 0`, for every input row (in particular the all-zero
one), every kernel and bias, with or without `use_bias`; over the real
embedding this is the statement that the division is well defined (no
division by zero, hence no NaN). -/
theorem cosineDense_denominator_pos {B I U : Nat} (useBias : Bool) (eps : ℝ)
    (heps : 0 < eps) (kernel : Fin I → Fin U → ℝ) (bias : Fin U → ℝ)
    (x : Fin B → Fin I → ℝ) (b : Fin B) (u : Fin U) :
    0 < cosineDenseXnorm useBias eps x b *
      cosineDenseWnorm useBias eps kernel bias u := by
  have hx : (0 : ℝ) ≤ ∑ k, x b k ^ 2 :=
    Finset.sum_nonneg fun i _ => sq_nonneg _
  have hker : (0 : ℝ) ≤ ∑ k, kernel k u ^ 2 :=
    Finset.sum_nonneg fun i _ => sq_nonneg _
  have hxb : (0 : ℝ) ≤ if useBias then (1 : ℝ) else 0 := by
    cases useBias <;> norm_num
  apply mul_pos
  · exact Real.sqrt_pos.mpr (by linarith)
  · have hb : (0 : ℝ) ≤ (if useBias then bias u else 0) ^ 2 := sq_nonneg _
    exact Real.sqrt_pos.mpr (by linarith)

/-- Witness for C8: the all-zero one-entry input with a nonzero kernel,
`ε = 1`, with bias in use. -/
theorem cosineDense_denominator_pos_witness :
    (0 : ℝ) < 1 ∧
      0 < cosineDenseXnorm true 1 (fun _ _ : Fin 1 => (0 : ℝ)) 0 *
        cosineDenseWnorm true 1 (fun _ _ : Fin 1 => (5 : ℝ)) (fun _ => 0) 0 :=
  ⟨one_pos, cosineDense_denominator_pos true 1 one_pos _ _ _ 0 0⟩

/-- The build-relevant state of a CosineDense instance: the constructor
hyperparameters `units` and `use_bias`, the `input_dim` recorded so far
(`none` before it is resolved), and the shapes of the parameters allocated by
`add_weight` (`none` before build). -/
structure CosineDenseState where
  units : Nat
  use_bias : Bool
  input_dim : Option Nat
  built : Bool
  kernel_shape : Option (Nat × Nat)
  bias_shape : Option Nat
deriving DecidableEq

/-- A CosineDense instance as the constructor leaves it: nothing allocated. -/
def cosineDenseInitState (units : Nat) (use_bias : Bool)
    (input_dim : Option Nat) : CosineDenseState :=
  ⟨units, use_bias, input_dim, false, none, none⟩

/-- CosineDense.build, lines 195-218: `assert ndim >= 2` (an `AssertionError`
when the rank is below 2), then `input_dim = input_shape[-1]` is recorded
unconditionally, the kernel of shape `(input_dim, units)` is allocated, and
the bias of shape `(units,)` is allocated exactly when `use_bias`.  No
comparison with a previously recorded `input_dim` is made. -/
def cosineDenseBuild (s : CosineDenseState) (input_shape : List Nat) :
    Except String CosineDenseState :=
  if input_shape.length < 2 then
    Except.error "AssertionError: ndim >= 2"
  else
    let input_dim := input_shape.getLastD 0
    Except.ok { s with
      input_dim := some input_dim
      built := true
      kernel_shape := some (input_dim, s.units)
      bias_shape := if s.use_bias then some s.units else none }

/-- Counterexample to C4: building a CosineDense first with trailing dimension
4 and then again with trailing dimension 7 raises no error at all; the second
build returns successfully and silently overwrites the recorded `input_dim`
(and reallocates the kernel shape), contradicting the claim that a
configuration error is raised. -/
theorem cosineDense_rebuild_raises_no_error :
    cosineDenseBuild (cosineDenseInitState 2 true none) [3, 4] =
      Except.ok ⟨2, true, some 4, true, some (4, 2), some 2⟩ ∧
    cosineDenseBuild ⟨2, true, some 4, true, some (4, 2), some 2⟩ [3, 7] =
      Except.ok ⟨2, true, some 7, true, some (7, 2), some 2⟩ :=
  ⟨rfl, rfl⟩

theorem cosineDenseBuild_ok (s : CosineDenseState)
    (input_shape : List Nat) (h : 2 ≤ input_shape.length) :
    cosineDenseBuild s input_shape =
      Except.ok { s with
        input_dim := some (input_shape.getLastD 0)
        built := true
        kernel_shape := some (input_shape.getLastD 0, s.units)
        bias_shape := if s.use_bias then some s.units else none } := by
  rw [cosineDenseBuild, if_neg (by omega)]

/-- C4 as amended: a second `CosineDense.build` call with an input shape whose
trailing dimension differs from the recorded one is not rejected: for every
state (in particular an already built one) and every shape of rank at least 2,
build succeeds and overwrites the recorded `input_dim` with the new trailing
dimension. -/
theorem cosineDense_rebuild_overwrites (s : CosineDenseState)
    (input_shape : List Nat) (h : 2 ≤ input_shape.length) :
    cosineDenseBuild s input_shape =
      Except.ok { s with
        input_dim := some (input_shape.getLastD 0)
        built := true
        kernel_shape := some (input_shape.getLastD 0, s.units)
        bias_shape := if s.use_bias then some s.units else none } :=
  cosineDenseBuild_ok s input_shape h

/-- Witness for the amended C4: the rebuilt state of the counterexample. -/
theorem cosineDense_rebuild_overwrites_witness :
    2 ≤ [3, 7].length ∧
      cosineDenseBuild ⟨2, true, some 4, true, some (4, 2), some 2⟩ [3, 7] =
        Except.ok ⟨2, true, some 7, true, some (7, 2), some 2⟩ :=
  ⟨by decide,
    cosineDense_rebuild_overwrites ⟨2, true, some 4, true, some (4, 2), some 2⟩
      [3, 7] (by decide)⟩

/-- C6: `CosineDense.build` fails with the rank assertion for every rank-1
input shape, and for every shape of rank at least 2 it succeeds, allocating a
kernel of shape `(last axis, units)` and, when `use_bias`, a bias of shape
`(units,)`. -/
theorem cosineDense_build_rank_check (s : CosineDenseState)
    (input_shape : List Nat) :
    (input_shape.length = 1 →
      cosineDenseBuild s input_shape =
        Except.error "AssertionError: ndim >= 2") ∧
    (2 ≤ input_shape.length →
      ∃ s2, cosineDenseBuild s input_shape = Except.ok s2 ∧
        s2.kernel_shape = some (input_shape.getLastD 0, s.units) ∧
        (s.use_bias = true → s2.bias_shape = some s.units) ∧
        s2.built = true) := by
  constructor
  · intro h1
    rw [cosineDenseBuild, if_pos (by omega)]
  · intro h2
    refine ⟨_, cosineDenseBuild_ok s input_shape h2, rfl, ?_, rfl⟩
    intro hb
    simp [hb]

/-- Witness for C6: a fresh instance rejects the rank-1 shape `[5]` and builds
for the rank-2 shape `[5, 3]`, allocating a `(3, 4)` kernel and a bias. -/
theorem cosineDense_build_rank_check_witness :
    ([5].length = 1 ∧
      cosineDenseBuild (cosineDenseInitState 4 true none) [5] =
        Except.error "AssertionError: ndim >= 2") ∧
    (2 ≤ [5, 3].length ∧
      ∃ s2, cosineDenseBuild (cosineDenseInitState 4 true none) [5, 3] =
          Except.ok s2 ∧
        s2.kernel_shape = some ([5, 3].getLastD 0, (cosineDenseInitState 4 true none).units) ∧
        ((cosineDenseInitState 4 true none).use_bias = true →
          s2.bias_shape = some (cosineDenseInitState 4 true none).units) ∧
        s2.built = true) :=
  ⟨⟨by decide,
      (cosineDense_build_rank_check (cosineDenseInitState 4 true none) [5]).1 (by decide)⟩,
    ⟨by decide,
      (cosineDense_build_rank_check (cosineDenseInitState 4 true none) [5, 3]).2 (by decide)⟩⟩

/-- CosineDense.compute_output_shape, lines 238-243:
`assert input_shape and len(input_shape) >= 2` then
`assert input_shape[-1] and input_shape[-1] == self.input_dim` (so a falsy --
zero -- trailing axis fails even when it equals `input_dim`), then the input
shape with the last axis replaced by `units`. -/
def cosineDenseComputeOutputShape (input_dim units : Nat)
    (input_shape : List Nat) : Except String (List Nat) :=
  if input_shape.length < 2 then
    Except.error "AssertionError: input_shape and len(input_shape) >= 2"
  else if input_shape.getLastD 0 = 0 ∨ input_shape.getLastD 0 ≠ input_dim then
    Except.error "AssertionError: input_shape[-1] == input_dim"
  else
    Except.ok (input_shape.dropLast ++ [units])

/-- Counterexample to C7: with a recorded `input_dim` of 0 and the rank-2
input shape `[1, 0]`, whose last axis equals the recorded `input_dim`, the
claim says the shape `[1, units]` is returned, but the code's truthiness
assertion `input_shape[-1]` fails on the zero axis and raises. -/
theorem cosineDense_output_shape_zero_axis :
    cosineDenseComputeOutputShape 0 2 [1, 0] =
      Except.error "AssertionError: input_shape[-1] == input_dim" :=
  rfl

/-- C7 as amended: for every input shape of rank at least 2 whose last axis is
nonzero (truthy) and equals the recorded `input_dim`,
`CosineDense.compute_output_shape` returns the shape with only the last axis
replaced by `units`, leaving every other axis unchanged; it fails when the
rank is below 2, when the last axis is zero, or when the last axis does not
match the recorded `input_dim`. -/
theorem cosineDense_output_shape_spec (input_dim units : Nat)
    (input_shape : List Nat) :
    (2 ≤ input_shape.length → input_shape.getLastD 0 ≠ 0 →
      input_shape.getLastD 0 = input_dim →
      cosineDenseComputeOutputShape input_dim units input_shape =
        Except.ok (input_shape.dropLast ++ [units])) ∧
    (input_shape.length < 2 ∨ input_shape.getLastD 0 = 0 ∨
        input_shape.getLastD 0 ≠ input_dim →
      ∃ e, cosineDenseComputeOutputShape input_dim units input_shape =
        Except.error e) := by
  constructor
  · intro h1 h2 h3
    rw [cosineDenseComputeOutputShape, if_neg (by omega), if_neg (by tauto)]
  · intro h1
    rcases h1 with h | h
    · exact ⟨_, by rw [cosineDenseComputeOutputShape, if_pos h]⟩
    · by_cases hlen : input_shape.length < 2
      · exact ⟨_, by rw [cosineDenseComputeOutputShape, if_pos hlen]⟩
      · exact ⟨_, by rw [cosineDenseComputeOutputShape, if_neg hlen, if_pos h]⟩

/-- Witness for the amended C7: with `input_dim = 3` and `units = 7`, the
shape `[2, 3]` maps to `[2, 7]`, while `[2, 4]` (mismatched last axis) fails. -/
theorem cosineDense_output_shape_spec_witness :
    (2 ≤ [2, 3].length ∧ [2, 3].getLastD 0 ≠ 0 ∧ [2, 3].getLastD 0 = 3 ∧
      cosineDenseComputeOutputShape 3 7 [2, 3] = Except.ok ([2, 3].dropLast ++ [7])) ∧
    (([2, 4].length < 2 ∨ [2, 4].getLastD 0 = 0 ∨ [2, 4].getLastD 0 ≠ 3) ∧
      ∃ e, cosineDenseComputeOutputShape 3 7 [2, 4] = Except.error e) :=
  ⟨⟨by decide, by decide, by decide,
      (cosineDense_output_shape_spec 3 7 [2, 3]).1 (by decide) (by decide) (by decide)⟩,
    ⟨by decide, (cosineDense_output_shape_spec 3 7 [2, 4]).2 (by decide)⟩⟩

/-- The constructor hyperparameters of a SeparableFC instance (lines 38-45):
`output_dim`, `symmetric`, and the two policy handles, stored verbatim.  The
policy handles are opaque host-framework objects, embedded as values of type
parameters. -/
structure SeparableFCHyperparams (R C : Type) where
  output_dim : Nat
  symmetric : Bool
  smoothness_regularizer : Option R
  positional_constraint : Option C
deriving DecidableEq

/-- SeparableFC.get_config, lines 92-98: the configuration mapping holds the
four constructor arguments verbatim (no serialization is applied to the
policy handles in this layer). -/
def sepFCGetConfig {R C : Type} (l : SeparableFCHyperparams R C) :
    SeparableFCHyperparams R C :=
  ⟨l.output_dim, l.symmetric, l.smoothness_regularizer, l.positional_constraint⟩

/-- Reconstruction from a configuration mapping: the host framework calls the
constructor with the mapping's entries as keyword arguments (lines 38-45). -/
def sepFCFromConfig {R C : Type} (c : SeparableFCHyperparams R C) :
    SeparableFCHyperparams R C :=
  ⟨c.output_dim, c.symmetric, c.smoothness_regularizer, c.positional_constraint⟩

/-- The constructor hyperparameters of a CosineDense instance (lines 176-199):
the policy handles are stored after resolution through the host `get`
functions, embedded as values of a type parameter `P`. -/
structure CosineDenseHyperparams (P : Type) where
  units : Nat
  kernel_initializer : P
  activation : P
  kernel_regularizer : Option P
  bias_regularizer : Option P
  activity_regularizer : Option P
  kernel_constraint : Option P
  bias_constraint : Option P
  use_bias : Bool
  input_dim : Option Nat
deriving DecidableEq

/-- The configuration mapping of a CosineDense instance (lines 245-257):
policy handles appear in serialized form, embedded as values of a type
parameter `S`. -/
structure CosineDenseConfig (S : Type) where
  units : Nat
  kernel_initializer : S
  activation : S
  kernel_regularizer : Option S
  bias_regularizer : Option S
  activity_regularizer : Option S
  kernel_constraint : Option S
  bias_constraint : Option S
  use_bias : Bool
  input_dim : Option Nat
deriving DecidableEq

/-- CosineDense.get_config, lines 245-257: every policy handle is serialized
through the host `serialize` function (`ser`); `units`, `use_bias` and
`input_dim` are copied verbatim. -/
def cosineDenseGetConfig {P S : Type} (ser : P → S)
    (l : CosineDenseHyperparams P) : CosineDenseConfig S :=
  ⟨l.units, ser l.kernel_initializer, ser l.activation,
    l.kernel_regularizer.map ser, l.bias_regularizer.map ser,
    l.activity_regularizer.map ser, l.kernel_constraint.map ser,
    l.bias_constraint.map ser, l.use_bias, l.input_dim⟩

/-- CosineDense constructor, lines 176-199: every policy argument is resolved
through the host `get` function (`deser`); `units`, `use_bias` and
`input_dim` are stored verbatim. -/
def cosineDenseInitHyperparams {P S : Type} (deser : S → P) (units : Nat)
    (kernel_initializer activation : S)
    (kernel_regularizer bias_regularizer activity_regularizer : Option S)
    (kernel_constraint bias_constraint : Option S) (use_bias : Bool)
    (input_dim : Option Nat) : CosineDenseHyperparams P :=
  ⟨units, deser kernel_initializer, deser activation,
    kernel_regularizer.map deser, bias_regularizer.map deser,
    activity_regularizer.map deser, kernel_constraint.map deser,
    bias_constraint.map deser, use_bias, input_dim⟩

/-- Reconstruction of a CosineDense instance from its configuration mapping:
the constructor applied to the mapping's entries. -/
def cosineDenseFromConfig {P S : Type} (deser : S → P)
    (c : CosineDenseConfig S) : CosineDenseHyperparams P :=
  cosineDenseInitHyperparams deser c.units c.kernel_initializer c.activation
    c.kernel_regularizer c.bias_regularizer c.activity_regularizer
    c.kernel_constraint c.bias_constraint c.use_bias c.input_dim

/-- C9: for every SeparableFC and every CosineDense instance, reconstructing
an instance from the `get_config` mapping yields identical hyperparameters
(`output_dim`, `symmetric`, `units`, `use_bias`, `input_dim`, and the policy
handles), provided the host policy round trip `get (serialize p) = p` holds. -/
theorem layer_config_roundtrip {R C P S : Type} (ser : P → S) (deser : S → P)
    (h : ∀ p, deser (ser p) = p) (l : SeparableFCHyperparams R C)
    (m : CosineDenseHyperparams P) :
    sepFCFromConfig (sepFCGetConfig l) = l ∧
    cosineDenseFromConfig deser (cosineDenseGetConfig ser m) = m := by
  constructor
  · rfl
  · cases m with
    | mk units ki act kr br ar kc bc ub idim =>
      have hmap : ∀ o : Option P, Option.map (deser ∘ ser) o = o := by
        intro o
        cases o <;> simp [h]
      simp [cosineDenseFromConfig, cosineDenseGetConfig,
        cosineDenseInitHyperparams, Option.map_map, Function.comp, h, hmap]

/-- Witness for C9 with the identity host serializer on `Nat` handles. -/
theorem layer_config_roundtrip_witness :
    (∀ p : Nat, id (id p) = p) ∧
    (sepFCFromConfig (sepFCGetConfig (⟨3, true, some 11, none⟩ :
        SeparableFCHyperparams Nat Nat)) =
      (⟨3, true, some 11, none⟩ : SeparableFCHyperparams Nat Nat) ∧
    cosineDenseFromConfig id (cosineDenseGetConfig id
        (⟨4, 7, 8, some 1, none, some 2, none, some 3, true, some 16⟩ :
          CosineDenseHyperparams Nat)) =
      (⟨4, 7, 8, some 1, none, some 2, none, some 3, true, some 16⟩ :
        CosineDenseHyperparams Nat)) :=
  ⟨fun _ => rfl,
    layer_config_roundtrip id id (fun _ => rfl)
      (⟨3, true, some 11, none⟩ : SeparableFCHyperparams Nat Nat)
      (⟨4, 7, 8, some 1, none, some 2, none, some 3, true, some 16⟩ :
        CosineDenseHyperparams Nat)⟩

/-- SeparableFC.compute_output_shape, lines 73-74:
`return (input_shape[0], self.output_dim)`; indexing an empty tuple would
raise, and nothing else is examined. -/
def sepFCComputeOutputShape (output_dim : Nat) (input_shape : List Nat) :
    Except String (Nat × Nat) :=
  match input_shape with
  | [] => Except.error "IndexError: input_shape[0]"
  | a :: _ => Except.ok (a, output_dim)

/-- C10: for every input shape with at least one axis,
`SeparableFC.compute_output_shape` returns `(first axis, output_dim)` reading
only the first axis: the result is the same for every tail, so a malformed
(non-3D) shape is never rejected at shape-inference time. -/
theorem sepFC_output_shape_no_validation (output_dim a : Nat)
    (rest : List Nat) :
    sepFCComputeOutputShape output_dim (a :: rest) =
      Except.ok (a, output_dim) ∧
    ∀ rest2 : List Nat,
      sepFCComputeOutputShape output_dim (a :: rest2) =
        sepFCComputeOutputShape output_dim (a :: rest) :=
  ⟨rfl, fun _ => rfl⟩
